import Mathlib

/-!
A verification development for the declarative binary-grammar engine in this
repository (node tree model, deferred `Path` expressions, `Definition`
construct protocol, graded validations, byte source).

The Python sources are shallowly embedded: each Lean definition carries a
comment naming the source function and lines it is translated from.
Python dictionaries are modelled as association lists with first-key-wins
lookup and in-place update, Python exceptions as `Except`/`Option` results,
and the engine's generator-driven child protocol as an explicit state
machine over the generator's suspension state.
-/

namespace PngSpec

/-! ## Data values stored on nodes

`src/node.py` stores attribute and metadata values of arbitrary Python type;
the values the engine actually stores are ints, strings, byte strings,
lists, `None`, validation exceptions, and back-references to definitions.
`vissue level msg` models a `ValidationException` instance whose class has
the given `level` (Info=0, Warning=1, Error=2, Fatal=3; `src/node.py:13`,
`src/validation.py:207`). -/

inductive DVal where
  | vint (n : Int)
  | vstr (s : String)
  | vbytes (bs : List Nat)
  | vnone
  | vlist (vs : List DVal)
  | vissue (level : Nat) (msg : String)
  deriving Repr

/-- Whether the stored value is a Python `list` (the `isinstance(attrdict[k], list)`
test in `src/node.py:104`). -/
def DVal.isList : DVal → Bool
  | .vlist _ => true
  | _ => false

/-- A Python `dict` with `DVal` values, as an insertion-ordered association
list: lookup returns the first binding, assignment replaces the first
binding or appends a fresh one. -/
abbrev Store := List (String × DVal)

/-- `dict.get(k)` / `dict[k]` lookup. -/
def storeLookup : Store → String → Option DVal
  | [], _ => none
  | (k', v') :: rest, k => if k' = k then some v' else storeLookup rest k

/-- `dict[k] = v` assignment: replaces the first binding of `k`, or appends
a new binding when `k` is absent (Python dicts keep insertion order). -/
def storeSet : Store → String → DVal → Store
  | [], k, v => [(k, v)]
  | (k', v') :: rest, k, v =>
      if k' = k then (k', v) :: rest else (k', v') :: storeSet rest k v

/-- One key of `BaseNode.add_data` (`src/node.py:100-110`): a key that is
absent is stored as given; a key whose current value is a Python list gets
the new value appended; any other existing value is promoted to a
two-element list. -/
def addOne (st : Store) (k : String) (v : DVal) : Store :=
  match storeLookup st k with
  | none => storeSet st k v
  | some (DVal.vlist vs) => storeSet st k (.vlist (vs ++ [v]))
  | some old => storeSet st k (.vlist [old, v])

/-- `BaseNode.add_data(d, meta)` (`src/node.py:100-110`): merge every pair of
`d` into the chosen store via `addOne`, in iteration order. -/
def addData (st : Store) (d : List (String × DVal)) : Store :=
  d.foldl (fun acc kv => addOne acc kv.1 kv.2) st

/-! ## Nodes

`BaseNode.__init__` (`src/node.py:91-98`): a node holds a name, an
attribute store, a metadata store and an ordered child list; a fresh node
is appended to its parent's children immediately on creation. The parent
back-reference is represented implicitly by embedding children in their
parent. -/

inductive PNode where
  | mk (name : String) (attributes : Store) (metadata : Store)
       (children : List PNode)
  deriving Repr

def PNode.name : PNode → String
  | .mk n _ _ _ => n

def PNode.attributes : PNode → Store
  | .mk _ a _ _ => a

def PNode.metadata : PNode → Store
  | .mk _ _ m _ => m

def PNode.children : PNode → List PNode
  | .mk _ _ _ c => c

/-- `node.add_data(d, meta=True)`. -/
def PNode.addMeta : PNode → List (String × DVal) → PNode
  | .mk n a m c, d => .mk n a (addData m d) c

/-- `node.add_data(d)` (attributes). -/
def PNode.addAttrs : PNode → List (String × DVal) → PNode
  | .mk n a m c, d => .mk n (addData a d) m c

/-- Append a freshly created child (`BaseNode.__init__`, `src/node.py:97-98`). -/
def PNode.appendChild : PNode → PNode → PNode
  | .mk n a m c, child => .mk n a m (c ++ [child])

/-- Delete the last child (`del children[-1]`, `src/definition.py:534` and
`src/definition.py:590`). -/
def PNode.dropLastChild : PNode → PNode
  | .mk n a m c => .mk n a m c.dropLast

/-! Supporting lemmas about store lookup after assignment. -/

theorem storeLookup_storeSet_self (st : Store) (k : String) (v : DVal) :
    storeLookup (storeSet st k v) k = some v := by
  induction st with
  | nil => simp [storeSet, storeLookup]
  | cons kv rest ih =>
      obtain ⟨k', v'⟩ := kv
      by_cases h : k' = k
      · simp [storeSet, storeLookup, h]
      · simp [storeSet, storeLookup, h, ih]

theorem addOne_lookup_fresh (st : Store) (k : String) (v : DVal)
    (h : storeLookup st k = none) :
    storeLookup (addOne st k v) k = some v := by
  simp [addOne, h, storeLookup_storeSet_self]

theorem addOne_lookup_scalar (st : Store) (k : String) (old v : DVal)
    (h : storeLookup st k = some old) (hscalar : old.isList = false) :
    storeLookup (addOne st k v) k = some (.vlist [old, v]) := by
  cases old <;> simp_all [addOne, DVal.isList, storeLookup_storeSet_self]

theorem addOne_lookup_list (st : Store) (k : String) (vs : List DVal) (v : DVal)
    (h : storeLookup st k = some (.vlist vs)) :
    storeLookup (addOne st k v) k = some (.vlist (vs ++ [v])) := by
  simp [addOne, h, storeLookup_storeSet_self]

/-! ## Path: deferred expressions (`src/path.py`)

A `Path` (`src/path.py:5-12`) is an immutable chain
`(parent, name, call, args, kwargs)`: the root has no parent; attribute
access wraps `(self, name)` (`src/path.py:60-64`); calling wraps
`(self, None, True, args, kwargs)` (`src/path.py:67-68`); operator dunders
wrap `(self, "__op__", True, [other])`. Arguments may be further `Path`s or
plain values; the `lit` constructor stands for a plain (non-`Path`)
argument, which `resolve_path` passes through unchanged
(`src/path.py:22-33`).

Python objects, for resolution purposes, are modelled by `PyVal`: an
attribute map, or a scalar, or a callable drawn from a small closed
function space `PyFn` (deep embedding of the lambdas the theorems use). -/

inductive PyFn where
  | double
  deriving Repr, DecidableEq

inductive PyVal where
  | vint (n : Int)
  | vstr (s : String)
  | vfn (f : PyFn)
  | vobj (fields : List (String × PyVal))
  deriving Repr

/-- `getattr(obj, name)`: field lookup on an object; anything else has no
attributes in the fragment we model. -/
def pyGetattr : PyVal → String → Option PyVal
  | .vobj fields, name => go fields name
  | _, _ => none
where
  go : List (String × PyVal) → String → Option PyVal
    | [], _ => none
    | (k, v) :: rest, name => if k = name then some v else go rest name

/-- Application of a callable: `obj(*args, **kwargs)`. `double` is
`lambda x: x*2` from the specification's example; it takes one positional
integer and no keyword arguments. -/
def pyApply : PyVal → List PyVal → List (String × PyVal) → Option PyVal
  | .vfn .double, [.vint n], [] => some (.vint (2 * n))
  | _, _, _ => none

mutual
inductive PyPath where
  | root
  | lit (v : PyVal)
  | attr (parent : PyPath) (name : String)
  | call (parent : PyPath) (name : Option String) (args : PyArgs)
         (kwargs : PyKwargs)
  deriving Repr
inductive PyArgs where
  | nil
  | cons (hd : PyPath) (tl : PyArgs)
  deriving Repr
inductive PyKwargs where
  | nil
  | cons (name : String) (hd : PyPath) (tl : PyKwargs)
  deriving Repr
end

mutual
/-- `Path.resolve_path(obj, node)` (`src/path.py:14-58`): the root returns
`obj` unchanged (line 58); an attribute node resolves its parent and then
takes `getattr` (line 54); a call node resolves its parent, resolves each
arg/kwarg against `node` (the original evaluation target, lines 22-33), and
either calls `getattr(obj, name)(...)` (line 43) or `obj(...)` (line 48).
`lit` models a plain non-`Path` argument, passed through unchanged.
A failing `getattr` or a non-callable application is an `AttributeError` /
`TypeError`, modelled as `none`. -/
def resolvePath : PyPath → PyVal → PyVal → Option PyVal
  | .root, obj, _ => some obj
  | .lit v, _, _ => some v
  | .attr p name, obj, node =>
      match resolvePath p obj node with
      | none => none
      | some o => pyGetattr o name
  | .call p name args kwargs, obj, node =>
      match resolvePath p obj node with
      | none => none
      | some o =>
        match resolveArgs args node, resolveKwargs kwargs node with
        | some ras, some rkw =>
          match name with
          | some nm =>
              match pyGetattr o nm with
              | none => none
              | some f => pyApply f ras rkw
          | none => pyApply o ras rkw
        | _, _ => none

/-- Resolution of positional call arguments against the evaluation target
(`src/path.py:22-27`). -/
def resolveArgs : PyArgs → PyVal → Option (List PyVal)
  | .nil, _ => some []
  | .cons a rest, node =>
      match resolvePath a node node with
      | none => none
      | some v =>
        match resolveArgs rest node with
        | none => none
        | some vs => some (v :: vs)

/-- Resolution of keyword call arguments against the evaluation target
(`src/path.py:28-33`). -/
def resolveKwargs : PyKwargs → PyVal → Option (List (String × PyVal))
  | .nil, _ => some []
  | .cons k a rest, node =>
      match resolvePath a node node with
      | none => none
      | some v =>
        match resolveKwargs rest node with
        | none => none
        | some vs => some ((k, v) :: vs)
end

/-- A top-level `p.resolve_path(target)` call: the keyword `node` defaults
to `None`, so `node` becomes the target itself (`src/path.py:17-18`). -/
def resolvePathTop (p : PyPath) (target : PyVal) : Option PyVal :=
  resolvePath p target target

/-- The chain built by the Python expression `Path().a.b(5)`. -/
def pathAB5 : PyPath :=
  .call (.attr (.attr .root "a") "b") none (.cons (.lit (.vint 5)) .nil) .nil

/-- C1: `Path.resolve_path` walks the chain root-to-leaf, resolving the
parent first and then either getting the named attribute off the
intermediate result or invoking it as a callable whose args are themselves
resolved against the same target at evaluation time; the empty `Path`
resolves to the target itself unchanged, and `Path().a.b(5)` resolved
against an object where `obj.a.b` is `lambda x: x*2` yields `10`. -/
theorem c1_path_resolution :
    (∀ target : PyVal, resolvePathTop .root target = some target) ∧
    (∀ (target av : PyVal),
      pyGetattr target "a" = some av →
      pyGetattr av "b" = some (.vfn .double) →
      resolvePathTop pathAB5 target = some (.vint 10)) ∧
    (∀ (target av : PyVal) (n : Int),
      pyGetattr target "a" = some av →
      pyGetattr av "b" = some (.vfn .double) →
      pyGetattr target "n" = some (.vint n) →
      resolvePathTop
        (.call (.attr (.attr .root "a") "b") none
          (.cons (.attr .root "n") .nil) .nil) target = some (.vint (2 * n))) := by
  refine ⟨fun target => rfl, ?_, ?_⟩ <;>
    · intros
      simp_all [resolvePathTop, pathAB5, resolvePath, resolveArgs,
        resolveKwargs, pyApply]

/-- A target object with `obj.a.b = lambda x: x*2`, on which `Path().a.b(5)`
concretely evaluates to `10`. -/
def c1Target : PyVal := .vobj [("a", .vobj [("b", .vfn .double)]), ("n", .vint 7)]

theorem c1_path_resolution_witness :
    pyGetattr c1Target "a" = some (.vobj [("b", .vfn .double)]) ∧
    resolvePathTop pathAB5 c1Target = some (.vint 10) :=
  ⟨rfl, c1_path_resolution.2.1 c1Target (.vobj [("b", .vfn .double)]) rfl rfl⟩

/-- C3: `BaseNode.add_data` never overwrites an existing entry: writing a
key once stores the scalar value `a`; writing the same key again promotes
the stored entry to a list; writing the same key three times with values
`a`, `b`, `c` yields the list `[a, b, c]`; and further writes keep
appending. -/
theorem c3_add_data_never_overwrites (st : Store) (k : String) (a b c : DVal)
    (hfresh : storeLookup st k = none) (hscalar : a.isList = false) :
    storeLookup (addOne st k a) k = some a ∧
    storeLookup (addOne (addOne st k a) k b) k = some (.vlist [a, b]) ∧
    storeLookup (addOne (addOne (addOne st k a) k b) k c) k
      = some (.vlist [a, b, c]) ∧
    (∀ (st' : Store) (w v : DVal), storeLookup st' k = some w →
      w.isList = false →
      storeLookup (addOne st' k v) k = some (.vlist [w, v])) ∧
    (∀ (st' : Store) (vs : List DVal) (v : DVal),
      storeLookup st' k = some (.vlist vs) →
      storeLookup (addOne st' k v) k = some (.vlist (vs ++ [v]))) := by
  have h1 := addOne_lookup_fresh st k a hfresh
  have h2 := addOne_lookup_scalar _ k a b h1 hscalar
  have h3 := addOne_lookup_list _ k [a, b] c h2
  exact ⟨h1, h2, by simpa using h3,
    fun st' w v hw hws => addOne_lookup_scalar st' k w v hw hws,
    fun st' vs v hv => addOne_lookup_list st' k vs v hv⟩

theorem c3_add_data_never_overwrites_witness :
    storeLookup (addOne (addOne (addOne [] "x" (.vint 1)) "x" (.vint 2))
        "x" (.vint 3)) "x" = some (.vlist [.vint 1, .vint 2, .vint 3]) :=
  (c3_add_data_never_overwrites [] "x" (.vint 1) (.vint 2) (.vint 3)
    rfl rfl).2.2.1

/-! ## Definition construction-time invariants (`src/definition.py:25-60`)

`Definition.__init__` stores `children if children else []` (line 51) and
then checks the children-xor-leaf invariant (lines 55-60). The `children`
argument is `None`, a list of child definitions, or — for
`NodeSequenceDef` — a generator object, which is always truthy. The
`value_func` argument, once `_set_value_func_values` has accepted it
(lines 99-141), is a callable or `None`; the callable's identity is
irrelevant to the invariant, so it is represented by a name. No `Source`
is involved at this stage: the check happens before any byte is read. -/

inductive ChildrenArg where
  | cnone
  | clist (n : Nat)
  | cgen
  deriving Repr, DecidableEq

/-- Python truthiness of the `children` argument: `None` and `[]` are falsy,
a non-empty list and a generator object are truthy. -/
def childrenTruthy : ChildrenArg → Bool
  | .cnone => false
  | .clist n => n != 0
  | .cgen => true

/-- `Definition.__init__` (`src/definition.py:49-60`) restricted to the
arguments that decide the children-xor-leaf invariant.  Returns the
`ValueError` message raised, or `ok` with the stored children. -/
def definitionInit (value_func : Option String) (children : ChildrenArg) :
    Except String ChildrenArg :=
  let stored := if childrenTruthy children then children else .clist 0
  if childrenTruthy stored ∧ value_func.isSome then
    .error "Cannot define both children and a value_func on the same Node."
  else if ¬childrenTruthy stored ∧ value_func.isNone then
    .error "Either children or value_func must be defined but both were None."
  else .ok stored

/-- C7: supplying both `children` and a `value_func`, or supplying neither,
makes `Definition` construction fail immediately with a `ValueError` (at
`__init__` time, before any source byte is read — `definitionInit` takes no
source at all); supplying exactly one succeeds. -/
theorem c7_children_xor_value_func (vf : Option String) (ch : ChildrenArg) :
    (childrenTruthy ch = true → vf.isSome = true →
      (definitionInit vf ch).isOk = false) ∧
    (childrenTruthy ch = false → vf.isNone = true →
      (definitionInit vf ch).isOk = false) ∧
    (childrenTruthy ch = true → vf.isNone = true →
      definitionInit vf ch = .ok ch) ∧
    (childrenTruthy ch = false → vf.isSome = true →
      definitionInit vf ch = .ok (.clist 0)) := by
  refine ⟨fun h1 h2 => ?_, fun h1 h2 => ?_, fun h1 h2 => ?_, fun h1 h2 => ?_⟩ <;>
    cases vf <;> simp_all [definitionInit, childrenTruthy, Except.isOk,
      Except.toBool]

theorem c7_children_xor_value_func_witness :
    (definitionInit (some "get_value") (.clist 2)).isOk = false ∧
    (definitionInit none .cnone).isOk = false :=
  ⟨(c7_children_xor_value_func (some "get_value") (.clist 2)).1 rfl rfl,
   (c7_children_xor_value_func none .cnone).2.1 rfl rfl⟩

/-! ## Validation objects and their logical combination (`src/validation.py`)

A `Validation` (`src/validation.py:35-126`) evaluates a check against a
node and, when the check comes out falsy, raises its configured error class
(default `ValidationWarning`).  For the combination claims only the error
class level, the message, and the truth of the check at a node matter, so a
validation is modelled by those three.  The known stages, in order, are
`pre`, `per_child`, `pre_derivation`, `post` (`src/validation.py:36`). -/

structure VSimple where
  level : Nat
  msg : String
  stage : String
  check : PNode → Bool

/-- `Validation.__call__` (`src/validation.py:119-126`): runs the check and
raises `self.error(message)` when the result is falsy. `some (level, msg)`
models a raised exception, `none` a passing validation. -/
def vsCall (v : VSimple) (node : PNode) : Option (Nat × String) :=
  if v.check node then none else some (v.level, v.msg)

/-- Index of a stage in `Validation.known_stages` (`src/validation.py:36`);
unknown stages are rejected in `__init__` and do not occur. -/
def stageIndex : String → Nat
  | "pre" => 0
  | "per_child" => 1
  | "pre_derivation" => 2
  | _ => 3

/-- `CompoundValidation.__init__` (`src/validation.py:147-165`): orders the
two sub-validations so that the one with the higher error level is `v1`
(evaluated first; ties keep the construction order), sets `error` to the
error class of the *first constructor argument* (line 158 reads the
parameter `v1`, not the reordered `self.v1`), and sets the stage to the
later of the two stages. -/
structure CompoundVal where
  v1 : VSimple
  v2 : VSimple
  errorLevel : Nat
  stage : String

def mkCompound (a b : VSimple) : CompoundVal :=
  if b.level ≤ a.level then
    ⟨a, b, a.level,
      if stageIndex a.stage ≤ stageIndex b.stage then b.stage else a.stage⟩
  else
    ⟨b, a, a.level,
      if stageIndex a.stage ≤ stageIndex b.stage then b.stage else a.stage⟩

/-- `AndValidation.__call__` (`src/validation.py:168-173`): calls `self.v1`
then `self.v2`; the first raised exception propagates. -/
def andCall (c : CompoundVal) (node : PNode) : Option (Nat × String) :=
  match vsCall c.v1 node with
  | some e => some e
  | none => vsCall c.v2 node

/-- C9: an `AndValidation` built from a Warning-level check and an
Error-level check evaluates the higher-severity (Error-level) check first
and raises its failure, independently of the order in which the two checks
were passed to the constructor: `AndValidation(w, e)` and
`AndValidation(e, w)` call the same ordered pair and behave identically. -/
theorem c9_and_validation_severity_order (w e : VSimple)
    (hw : w.level = 1) (he : e.level = 2) :
    (mkCompound w e).v1 = e ∧ (mkCompound w e).v2 = w ∧
    (mkCompound e w).v1 = e ∧ (mkCompound e w).v2 = w ∧
    (∀ node : PNode, andCall (mkCompound w e) node = andCall (mkCompound e w) node) ∧
    (∀ node : PNode, e.check node = false →
      andCall (mkCompound w e) node = some (2, e.msg)) := by
  have hord : ¬ e.level ≤ w.level := by omega
  have hord' : w.level ≤ e.level := by omega
  refine ⟨?_, ?_, ?_, ?_, ?_, ?_⟩ <;>
    simp [mkCompound, hord, hord', andCall, vsCall, he] <;> intros <;>
    simp_all [vsCall]

/-- Concrete instances for `c9_and_validation_severity_order`: a Warning
check that always passes and an Error check that always fails. -/
def c9Warn : VSimple := ⟨1, "warning check", "post", fun _ => true⟩

def c9Err : VSimple := ⟨2, "error check", "post", fun _ => false⟩

theorem c9_and_validation_severity_order_witness :
    andCall (mkCompound c9Warn c9Err) (.mk "n" [] [] [])
      = some (2, "error check") :=
  (c9_and_validation_severity_order c9Warn c9Err rfl rfl).2.2.2.2.2
    (.mk "n" [] [] []) rfl

/-! ## Validation stages during construct (`src/definition.py:192-213`) -/

/-- The outcome of calling one validation against the node under
construction: it either returns (passes), or raises a
`ValidationException` of the given level (Info=0, Warning=1, Error=2,
Fatal=3 — the only four classes, `src/validation.py:222-248`). -/
inductive VOutcome where
  | ok
  | exn (level : Nat) (msg : String)

/-- One entry of `self.validation`, as `validate_stage` sees it: its
`stage` attribute and its behaviour when called with the node. -/
structure VCheck where
  stage : String
  run : PNode → VOutcome

/-- The generator filter
`(v for v in self.validation if v.stage == stage)` (`src/definition.py:202`). -/
def stageChecks (validation : List VCheck) (stage : String) : List VCheck :=
  validation.filter (fun v => v.stage == stage)

/-- The `try/except` loop of `Definition.validate_stage`
(`src/definition.py:202-210`): levels 0-2 (`ValidationInfo`,
`ValidationWarning`, `ValidationError`) are caught and collected into
`issues`; `ValidationFatal` (level 3) is re-raised at once. -/
def runChecks (node : PNode) : List VCheck → List (Nat × String) →
    Except (Nat × String) (List (Nat × String))
  | [], acc => .ok acc
  | c :: rest, acc =>
    match c.run node with
    | .ok => runChecks node rest acc
    | .exn l m =>
      if l < 3 then runChecks node rest (acc ++ [(l, m)]) else .error (l, m)

/-- `Definition.validate_stage(node, stage)` (`src/definition.py:192-213`):
filters the validations whose `stage` matches, runs them collecting
sub-Fatal exceptions, and — when any were collected — appends the whole
`issues` list to the node's metadata under `"validation"`.  A Fatal
exception propagates as `.error` (and nothing is recorded, since the
`add_data` call sits after the loop). -/
def validateStage (validation : List VCheck) (node : PNode) (stage : String) :
    Except (Nat × String) (PNode × List (Nat × String)) :=
  match runChecks node (stageChecks validation stage) [] with
  | .error e => .error e
  | .ok issues =>
    if issues.isEmpty then .ok (node, issues)
    else
      .ok (node.addMeta
        [("validation", .vlist (issues.map fun lm => DVal.vissue lm.1 lm.2))],
        issues)

/-- The exceptions the stage's checks raise at `node`, in order. -/
def raisedIssues (node : PNode) (cs : List VCheck) : List (Nat × String) :=
  cs.filterMap fun c =>
    match c.run node with
    | .ok => none
    | .exn l m => some (l, m)

theorem runChecks_ok (node : PNode) (cs : List VCheck)
    (h : ∀ c ∈ cs, ∀ l m, c.run node = .exn l m → l < 3) :
    ∀ acc, runChecks node cs acc = .ok (acc ++ raisedIssues node cs) := by
  induction cs with
  | nil => intro acc; simp [runChecks, raisedIssues]
  | cons c rest ih =>
      intro acc
      have hc := h c (by simp)
      have hrest : ∀ c' ∈ rest, ∀ l m, c'.run node = .exn l m → l < 3 :=
        fun c' hc' => h c' (by simp [hc'])
      cases hrun : c.run node with
      | ok => simp [runChecks, hrun, ih hrest, raisedIssues]
      | exn l m =>
          have hl : l < 3 := hc l m hrun
          simp [runChecks, hrun, hl, ih hrest, raisedIssues]

theorem runChecks_fatal (node : PNode) (cs : List VCheck)
    (hwf : ∀ c ∈ cs, ∀ l m, c.run node = .exn l m → l ≤ 3)
    (h : ∃ c ∈ cs, ∃ m, c.run node = .exn 3 m) :
    ∀ acc, ∃ m', runChecks node cs acc = .error (3, m') := by
  induction cs with
  | nil => simp at h
  | cons c rest ih =>
      intro acc
      have hwfrest : ∀ c' ∈ rest, ∀ l m, c'.run node = .exn l m → l ≤ 3 :=
        fun c' hc' => hwf c' (by simp [hc'])
      cases hrun : c.run node with
      | ok =>
          have hh : ∃ c' ∈ rest, ∃ m, c'.run node = .exn 3 m := by
            obtain ⟨c', hc', m, hm⟩ := h
            rcases List.mem_cons.mp hc' with rfl | hmem
            · rw [hrun] at hm; cases hm
            · exact ⟨c', hmem, m, hm⟩
          simpa [runChecks, hrun] using ih hwfrest hh acc
      | exn l m =>
          by_cases hl : l < 3
          · have hh : ∃ c' ∈ rest, ∃ m, c'.run node = .exn 3 m := by
              obtain ⟨c', hc', m', hm'⟩ := h
              rcases List.mem_cons.mp hc' with rfl | hmem
              · exfalso
                rw [hrun] at hm'
                injection hm' with h1 h2
                omega
              · exact ⟨c', hmem, m', hm'⟩
            simpa [runChecks, hrun, hl] using ih hwfrest hh (acc ++ [(l, m)])
          · have hl3 : l = 3 := by
              have := hwf c (by simp) l m hrun
              omega
            subst hl3
            exact ⟨m, by simp [runChecks, hrun]⟩

/-- C4: for every validation stage run during construct, a validation that
raises an Info, Warning, or Error level exception is caught at that stage
and the exceptions are recorded in the node's metadata under `"validation"`
(the stage returns normally, so construction continues), while a Fatal
level exception always propagates out of `validate_stage` — and hence out
of `construct`, which never catches `ValidationFatal` — aborting the
parse. -/
theorem c4_validation_severity (validation : List VCheck) (node : PNode)
    (stage : String) :
    ((∀ c ∈ stageChecks validation stage, ∀ l m,
        c.run node = .exn l m → l < 3) →
      raisedIssues node (stageChecks validation stage) ≠ [] →
      storeLookup node.metadata "validation" = none →
      validateStage validation node stage =
        .ok (node.addMeta [("validation",
              .vlist ((raisedIssues node (stageChecks validation stage)).map
                fun lm => DVal.vissue lm.1 lm.2))],
            raisedIssues node (stageChecks validation stage)) ∧
        storeLookup (node.addMeta [("validation",
            .vlist ((raisedIssues node (stageChecks validation stage)).map
              fun lm => DVal.vissue lm.1 lm.2))]).metadata "validation"
          = some (.vlist ((raisedIssues node (stageChecks validation stage)).map
              fun lm => DVal.vissue lm.1 lm.2))) ∧
    ((∀ c ∈ stageChecks validation stage, ∀ l m,
        c.run node = .exn l m → l ≤ 3) →
      (∃ c ∈ stageChecks validation stage, ∃ m, c.run node = .exn 3 m) →
      ∃ m', validateStage validation node stage = .error (3, m')) := by
  constructor
  · intro h hne hfresh
    have hrc := runChecks_ok node _ h []
    constructor
    · simp only [validateStage, hrc, List.nil_append]
      simp [hne]
    · obtain ⟨nm, av, mt, ch⟩ := node
      simpa [PNode.addMeta, PNode.metadata, addData] using
        addOne_lookup_fresh mt "validation" _ hfresh
  · intro hwf h
    obtain ⟨m', hm'⟩ := runChecks_fatal node _ hwf h []
    exact ⟨m', by simp [validateStage, hm']⟩

/-- Concrete checks for `c4_validation_severity`: a post-stage Warning that
fails, plus (second conjunct) a post-stage Fatal. -/
def c4Node : PNode := .mk "n" [] [] []

def c4Warn : VCheck := ⟨"post", fun _ => .exn 1 "warn"⟩

def c4Fatal : VCheck := ⟨"post", fun _ => .exn 3 "fatal"⟩

theorem c4_validation_severity_witness :
    validateStage [c4Warn] c4Node "post" =
      .ok (c4Node.addMeta [("validation", .vlist [.vissue 1 "warn"])],
        [(1, "warn")]) ∧
    ∃ m', validateStage [c4Warn, c4Fatal] c4Node "post" = .error (3, m') := by
  constructor
  · have := ((c4_validation_severity [c4Warn] c4Node "post").1
      (by intro c hc l m hr
          simp [stageChecks, List.filter, c4Warn] at hc
          subst hc
          injection hr with h1 h2
          omega)
      (by simp [raisedIssues, c4Warn, stageChecks, List.filter]) rfl).1
    simpa [raisedIssues, c4Warn, stageChecks, List.filter] using this
  · exact (c4_validation_severity [c4Warn, c4Fatal] c4Node "post").2
      (by intro c hc l m hr
          simp [stageChecks, List.filter, c4Warn, c4Fatal] at hc
          rcases hc with rfl | rfl <;> injection hr with h1 h2 <;> omega)
      ⟨c4Fatal, by simp [stageChecks, List.filter, c4Warn, c4Fatal], "fatal",
        rfl⟩

/-! ## Byte source (`src/source.py`)

`FileSource` wraps a forward-only file cursor.  `read(n)` calls
`self.f.read(n)`, which returns up to `n` bytes and always advances the
cursor to `min(pos + n, len)`; when fewer than `n` bytes were available an
`EOFError` is raised — after the cursor has already moved past the partial
read (`src/source.py:15-18`).  `tell()` reports the cursor
(`src/source.py:21-22`). -/

structure Src where
  sname : String
  data : List Nat
  pos : Nat
  deriving Repr

/-- `FileSource.read(n)` (`src/source.py:15-18`): `none` models the raised
`EOFError`; the returned source reflects the advanced cursor in either
case. -/
def srcRead (s : Src) (n : Nat) : Option (List Nat) × Src :=
  let chunk := (s.data.drop s.pos).take n
  let s' := { s with pos := min (s.pos + n) s.data.length }
  if chunk.length < n then (none, s') else (some chunk, s')

/-- `FileSource.tell()` (`src/source.py:21-22`). -/
def Src.tell (s : Src) : Nat := s.pos

/-! ## The construct protocol for a byte-reading leaf

`Definition.construct` on a resolved facade (`src/definition.py:253-291`)
for a leaf definition with no explicit validations or attribute producers:
record the definition in metadata, merge `get_preread_metadata`
(`{source, start_index}`, `src/source.py:6-8`), read the value, merge
`get_postread_metadata` (`{end_index, length}`, `src/source.py:10-13`), and
return the node.  The node is attached to its parent on creation
(`src/node.py:97-98`), so when the read raises `EOFError` the partially
built node (with only its pre-read metadata) stays in the tree. -/

def childConstruct (cname : String) (r : Nat) (s : Src) :
    PNode × Bool × Src :=
  let meta0 : Store := [("definition", .vstr cname), ("source", .vstr s.sname),
    ("start_index", .vint s.pos)]
  match srcRead s r with
  | (none, s') => (.mk cname [] meta0 [], false, s')
  | (some bs, s') =>
      (.mk cname [("value", .vbytes bs)]
        (addData meta0 [("end_index", .vint s'.pos),
          ("length", .vint ((s'.pos : Int) - (s.pos : Int)))]) [],
       true, s')

/-! ## The generator-driven child protocol of `NodeSequenceDef`

`NodeSequenceDef.__init__` (`src/definition.py:508-514`) creates ONE
generator object `self.child_generator(childdef)` and stores it as the
template's `children`.  `GenSt` is that generator object's suspension
state: not yet started, suspended at its `j`-th yield (yield 0 is the
initial `yield None`, yields 1, 2, … hand out `childdef`), or finished.

`child_generator` (`src/definition.py:539-552`): after the priming yield it
resolves `items`; a negative value raises `ValidationFatal`; `for i in
itertools.count() if not items else range(items+1)` — so `items = 0` is
falsy and selects the unbounded iterator exactly like `items = None`, and
an items value `n > 0` allows `n + 1` childdef yields.  Before each yield
the `stop` predicate is applied to the value most recently sent in, unless
that value is `None`.

The engine side (`Definition.construct`, `src/definition.py:266-275`)
primes the generator with `send(None)`, sends the container node to get the
first `childdef` (both outside the `try`, so a `StopIteration` there
escapes `construct`), then loops: each further `send` is inside the `try`
(a `StopIteration` there ends the sequence), and every obtained `childdef`
is constructed against the source, the built child being the next value
sent in. -/

inductive GenSt where
  | notStarted
  | suspended (j : Nat)
  | exhausted
  deriving Repr, DecidableEq

/-- The values `Definition.construct` sends into the children generator:
`None` (priming and resumption after a previous construct), the container
node, the first yielded `childdef` itself (the quirk at
`src/definition.py:268-271`: the value of the second `send` is a
Definition, and it is what the third `send` sends back in), and thereafter
each constructed child node. -/
inductive SentVal where
  | noneV
  | container
  | defn
  | childN (c : PNode)
  deriving Repr

def SentVal.isNone : SentVal → Bool
  | .noneV => true
  | _ => false

/-- Resolution of `items` at the generator's first resume
(`src/definition.py:541-547`): `None` and `0` both select the unbounded
`itertools.count()`; a negative value raises `ValidationFatal`; `n > 0`
selects `range(n+1)`, i.e. a budget of `n + 1` childdef yields. -/
def genPlan : Option Int → Except String (Option Nat)
  | none => .ok none
  | some n =>
      if n < 0 then .error "ValidationFatal: items is less than 0"
      else if n = 0 then .ok none
      else .ok (some (n.toNat + 1))

/-- One `send` into the suspended `child_generator`: returns whether it
yielded again (`false` = `StopIteration`) and the new suspension state.
At `suspended j` the loop is about to run iteration `i = j`: it ends when
the bounded range is out (`plan = some limit` and `limit ≤ j`), or when
`stop` holds of the value just sent in (skipped when that value is `None`,
`src/definition.py:548`); otherwise it yields `childdef` once more. -/
def genSend (plan : Option Nat) (stop : SentVal → Bool) (sent : SentVal) :
    GenSt → Bool × GenSt
  | .notStarted => (true, .suspended 0)
  | .suspended j =>
      if (plan.map fun limit => decide (limit ≤ j)).getD false then
        (false, .exhausted)
      else if (!sent.isNone) && stop sent then (false, .exhausted)
      else (true, .suspended (j + 1))
  | .exhausted => (false, .exhausted)

/-- Result of driving the children generator: the error that escaped (if
any), the child nodes left attached to the sequence node, the generator
state, and the source cursor. -/
structure EngRes where
  err : Option String
  children : List PNode
  genSt : GenSt
  s : Src
  deriving Repr

/-- The engine's `while True: try: childdef = children.send(childnode) ...`
loop (`src/definition.py:269-275`): each yielded `childdef` is constructed
(appending its node to the sequence node even when the read fails), a
`StopIteration` inside the `try` ends the loop normally, and an `EOFError`
from the child's read escapes.  `fuel` bounds the unrolling; the callers
supply more fuel than any terminating run can use, and a run that would not
terminate in Python (zero-byte records with no bound) ends in the marker
error `"fuel"`, which no theorem relies on. -/
def engineLoop (plan : Option Nat) (stop : SentVal → Bool) (cname : String)
    (r : Nat) : Nat → GenSt → SentVal → List PNode → Src → EngRes
  | 0, st, _, acc, s => ⟨some "fuel", acc, st, s⟩
  | fuel + 1, st, lastSent, acc, s =>
    match genSend plan stop lastSent st with
    | (false, st') => ⟨none, acc, st', s⟩
    | (true, st') =>
      match childConstruct cname r s with
      | (cn, false, s') => ⟨some "EOFError", acc ++ [cn], st', s'⟩
      | (cn, true, s') =>
          engineLoop plan stop cname r fuel st' (.childN cn) (acc ++ [cn]) s'

/-- Fuel that strictly dominates every terminating run: a bounded plan
yields at most `items + 1` times, and with records of at least one byte
each successful child consumes source, so `data.length` bounds the
children. -/
def seqFuel (items : Option Int) (s : Src) : Nat :=
  s.data.length + (match items with | some n => n.toNat | none => 0) + 4

/-- Driving the children of one `NodeSequenceDef` construct call, starting
from the stored generator's current state (`src/definition.py:266-275`).
The first two `send`s sit outside the `try`, so a `StopIteration` from
either (e.g. a generator exhausted by a previous parse) escapes
`construct`; resolution of `items` happens inside the generator at its
first resume, so a `ValidationFatal` for negative `items` also surfaces at
the second `send`. -/
def seqChildrenRun (items : Option Int) (stop : SentVal → Bool)
    (cname : String) (r : Nat) (fuel : Nat) (st0 : GenSt) (s : Src) : EngRes :=
  match st0 with
  | .exhausted => ⟨some "StopIteration", [], .exhausted, s⟩
  | .notStarted =>
      match genPlan items with
      | .error e => ⟨some e, [], .exhausted, s⟩
      | .ok plan =>
        match genSend plan stop .container (.suspended 0) with
        | (false, st2) => ⟨some "StopIteration", [], st2, s⟩
        | (true, st2) => engineLoop plan stop cname r fuel st2 .defn [] s
  | .suspended j =>
      match genPlan items with
      | .error e => ⟨some e, [], .exhausted, s⟩
      | .ok plan =>
        match genSend plan stop .noneV (.suspended j) with
        | (false, st1) => ⟨some "StopIteration", [], st1, s⟩
        | (true, st1) =>
          match genSend plan stop .container st1 with
          | (false, st2) => ⟨some "StopIteration", [], st2, s⟩
          | (true, st2) => engineLoop plan stop cname r fuel st2 .defn [] s

/-- The end-of-source recovery test of `NodeSequenceDef.construct`
(`src/definition.py:526-537`): the escaped exception is an `EOFError`, no
explicit `items` was given (`self.items is None`), the sequence node has at
least two children, and the second-to-last child's recorded `end_index`
equals the current cursor (`source.tell()`). -/
def recoveryApplies (e : String) (items : Option Int)
    (children : List PNode) (pos : Nat) : Bool :=
  e == "EOFError" && items.isNone && decide (2 ≤ children.length) &&
  (match children.dropLast.getLast? with
   | some c2 =>
     match storeLookup c2.metadata "end_index" with
     | some (.vint k) => k == (pos : Int)
     | _ => false
   | none => false)

/-- Result of one `NodeSequenceDef.construct` call: the exception that
escaped (if any), whether a node was returned (recovery falls off the end
of the method and returns `None`, `src/definition.py:531-535`), the parent
as left in the tree (the sequence node is attached on creation and stays
attached in every case), the generator state, and the source. -/
structure CtorRes where
  err : Option String
  returnedNode : Bool
  parent : PNode
  genSt : GenSt
  src : Src
  deriving Repr

/-- `NodeSequenceDef.construct(source, parent)`
(`src/definition.py:516-537` wrapping `src/definition.py:246-291`): create
the sequence node under `parent`, drive the children generator, and on
normal completion merge the post-read metadata; on an `EOFError`, apply the
recovery test and either discard the dangling final child and return
cleanly, or re-raise. -/
def nodeSeqConstruct (items : Option Int) (stop : SentVal → Bool)
    (name cname : String) (r : Nat) (st0 : GenSt) (parent : PNode) (s : Src) :
    CtorRes :=
  let meta0 : Store := [("definition", .vstr name), ("source", .vstr s.sname),
    ("start_index", .vint s.pos)]
  let er := seqChildrenRun items stop cname r (seqFuel items s) st0 s
  match er.err with
  | none =>
      let meta1 := addData meta0 [("end_index", .vint er.s.pos),
        ("length", .vint ((er.s.pos : Int) - (s.pos : Int)))]
      ⟨none, true, parent.appendChild (.mk name [] meta1 er.children),
        er.genSt, er.s⟩
  | some e =>
      let node : PNode := .mk name [] meta0 er.children
      if recoveryApplies e items er.children er.s.pos then
        ⟨none, false, parent.appendChild node.dropLastChild, er.genSt, er.s⟩
      else
        ⟨some e, false, parent.appendChild node, er.genSt, er.s⟩

/-- A `NodeSequenceDef` template: its configuration fields together with
the state of the single generator object created in `__init__`
(`src/definition.py:513`) and shared, by reference, with every per-call
facade (`Definition.resolve_all` copies references,
`src/definition.py:166-177`). -/
structure SeqTmpl where
  name : String
  cname : String
  r : Nat
  items : Option Int
  stop : SentVal → Bool
  genSt : GenSt

/-- One `construct` call on a `NodeSequenceDef` template: the call works on
a facade, but the generator object — and hence its state — is the
template's own. -/
def seqTmplConstruct (t : SeqTmpl) (parent : PNode) (s : Src) :
    CtorRes × SeqTmpl :=
  let res := nodeSeqConstruct t.items t.stop t.name t.cname t.r t.genSt
    parent s
  (res, { t with genSt := res.genSt })

/-! Lemmas: a `StopIteration` (a `false` from `genSend`) always leaves the
generator exhausted, so a children run that ends normally leaves the
template's generator exhausted. -/

theorem genSend_false_exhausted (plan : Option Nat) (stop : SentVal → Bool)
    (sent : SentVal) (st : GenSt)
    (h : (genSend plan stop sent st).1 = false) :
    (genSend plan stop sent st).2 = .exhausted := by
  cases st with
  | notStarted => simp [genSend] at h
  | suspended j =>
      simp only [genSend] at h ⊢
      split_ifs at h ⊢ <;> simp_all
  | exhausted => rfl

theorem engineLoop_err_none_exhausted (plan : Option Nat)
    (stop : SentVal → Bool) (cname : String) (r : Nat) :
    ∀ (fuel : Nat) (st : GenSt) (lastSent : SentVal) (acc : List PNode)
      (s : Src),
      (engineLoop plan stop cname r fuel st lastSent acc s).err = none →
      (engineLoop plan stop cname r fuel st lastSent acc s).genSt
        = .exhausted := by
  intro fuel
  induction fuel with
  | zero => intro st lastSent acc s h; simp [engineLoop] at h
  | succ n ih =>
      intro st lastSent acc s h
      rcases hg : genSend plan stop lastSent st with ⟨b, st'⟩
      cases b with
      | false =>
          have h1 : (genSend plan stop lastSent st).1 = false := by
            rw [hg]
          have h2 := genSend_false_exhausted plan stop lastSent st h1
          rw [hg] at h2
          simp only [engineLoop, hg] at h ⊢
          exact h2
      | true =>
          rcases hc : childConstruct cname r s with ⟨cn, ok, s'⟩
          cases ok with
          | false => simp [engineLoop, hg, hc] at h
          | true =>
              simp only [engineLoop, hg, hc] at h ⊢
              exact ih st' (.childN cn) (acc ++ [cn]) s' h

theorem seqChildrenRun_err_none_exhausted (items : Option Int)
    (stop : SentVal → Bool) (cname : String) (r : Nat) (fuel : Nat)
    (st0 : GenSt) (s : Src)
    (h : (seqChildrenRun items stop cname r fuel st0 s).err = none) :
    (seqChildrenRun items stop cname r fuel st0 s).genSt = .exhausted := by
  cases st0 with
  | exhausted => simp [seqChildrenRun] at h
  | notStarted =>
      simp only [seqChildrenRun] at h ⊢
      rcases hp : genPlan items with e | plan
      · simp [hp] at h
      · simp only [hp] at h ⊢
        rcases hg : genSend plan stop .container (.suspended 0) with ⟨b, st2⟩
        cases b with
        | false => simp [hg] at h
        | true =>
            simp only [hg] at h ⊢
            exact engineLoop_err_none_exhausted plan stop cname r fuel st2
              .defn [] s h
  | suspended j =>
      simp only [seqChildrenRun] at h ⊢
      rcases hp : genPlan items with e | plan
      · simp [hp] at h
      · simp only [hp] at h ⊢
        rcases hg1 : genSend plan stop .noneV (.suspended j) with ⟨b1, st1⟩
        cases b1 with
        | false => simp [hg1] at h
        | true =>
            simp only [hg1] at h ⊢
            rcases hg2 : genSend plan stop .container st1 with ⟨b2, st2⟩
            cases b2 with
            | false => simp [hg2] at h
            | true =>
                simp only [hg2] at h ⊢
                exact engineLoop_err_none_exhausted plan stop cname r fuel
                  st2 .defn [] s h

/-! Shared concrete inputs for the sequence theorems. -/

/-- The default stop predicate `lambda node: False`
(`src/definition.py:510`). -/
def stopNever : SentVal → Bool := fun _ => false

def rootNode : PNode := .mk "root" [] [] []

/-- A 10-byte source: two whole 4-byte records and a 2-byte fragment. -/
def bytes10 : Src := ⟨"f", [0, 1, 2, 3, 4, 5, 6, 7, 8, 9], 0⟩

/-- A 12-byte source: three whole 4-byte records. -/
def bytes12 : Src := ⟨"f", [0, 1, 2, 3, 4, 5, 6, 7, 8, 9, 10, 11], 0⟩

/-- C5 counterexample: with no `items`, a never-true `stop`, 4-byte records
and the 10-byte source, the sequence does NOT terminate cleanly with 2
children — the failed 4-byte read of the trailing fragment advances the
cursor to 10, the second-to-last child's `end_index` is 8 ≠ 10, so the
recovery test fails and the `EOFError` propagates, leaving the dangling
third child in the tree. -/
theorem c5_counterexample :
    (nodeSeqConstruct none stopNever "chunks" "chunk" 4 .notStarted rootNode
      bytes10).err = some "EOFError" ∧
    (nodeSeqConstruct none stopNever "chunks" "chunk" 4 .notStarted rootNode
      bytes10).src.tell = 10 ∧
    ((nodeSeqConstruct none stopNever "chunks" "chunk" 4 .notStarted rootNode
      bytes10).parent.children.map fun c =>
        c.children.map fun c' => storeLookup c'.metadata "end_index")
      = [[some (.vint 4), some (.vint 8), none]] := by
  exact ⟨rfl, rfl, rfl⟩

/-- C5 amended: end-of-source recovery applies only when end-of-source
strikes exactly at a record boundary, because the failed partial read
advances the cursor past the fragment before `EOFError` is raised.  For any
8-byte source of 4-byte records the dangling zero-byte third child is
discarded and the sequence terminates cleanly with exactly 2 children; for
any 10-byte source the trailing 2-byte fragment leaves the cursor at 10
while the second-to-last child ends at 8, so the `EOFError` propagates. -/
theorem c5_amended_recovery_boundary_only
    (b0 b1 b2 b3 b4 b5 b6 b7 b8 b9 : Nat) :
    (nodeSeqConstruct none stopNever "chunks" "chunk" 4 .notStarted rootNode
      ⟨"f", [b0, b1, b2, b3, b4, b5, b6, b7], 0⟩).err = none ∧
    ((nodeSeqConstruct none stopNever "chunks" "chunk" 4 .notStarted rootNode
      ⟨"f", [b0, b1, b2, b3, b4, b5, b6, b7], 0⟩).parent.children.map
        fun c => c.children.length) = [2] ∧
    (nodeSeqConstruct none stopNever "chunks" "chunk" 4 .notStarted rootNode
      ⟨"f", [b0, b1, b2, b3, b4, b5, b6, b7, b8, b9], 0⟩).err
      = some "EOFError" ∧
    (nodeSeqConstruct none stopNever "chunks" "chunk" 4 .notStarted rootNode
      ⟨"f", [b0, b1, b2, b3, b4, b5, b6, b7, b8, b9], 0⟩).src.tell = 10 := by
  exact ⟨rfl, rfl, rfl, rfl⟩

/-- A stop predicate that holds of a child whose recorded `end_index` is 8
(true after the second 4-byte record). -/
def stopAtEnd8 : SentVal → Bool := fun sv =>
  match sv with
  | .childN c =>
      match storeLookup c.metadata "end_index" with
      | some (.vint k) => k == 8
      | _ => false
  | _ => false

/-- C10: a `NodeSequenceDef` whose `items` equals `0` does not produce an
empty sequence of zero children: `not items` is truthy for `0`, so
`child_generator` selects the unbounded `itertools.count()` exactly as for
an omitted `items` — the children run is identical to the `items = None`
run on every input — and child construction repeats until the stop
predicate holds or the source is exhausted (concretely: `items = 0`, 4-byte
records, a 12-byte source and a stop at offset 8 yield exactly 2
children). -/
theorem c10_items_zero_unbounded :
    genPlan (some 0) = genPlan none ∧
    (∀ (stop : SentVal → Bool) (cname : String) (r fuel : Nat)
      (st0 : GenSt) (s : Src),
      seqChildrenRun (some 0) stop cname r fuel st0 s
        = seqChildrenRun none stop cname r fuel st0 s) ∧
    (nodeSeqConstruct (some 0) stopAtEnd8 "chunks" "chunk" 4 .notStarted
      rootNode bytes12).err = none ∧
    ((nodeSeqConstruct (some 0) stopAtEnd8 "chunks" "chunk" 4 .notStarted
      rootNode bytes12).parent.children.map fun c => c.children.length)
      = [2] := by
  refine ⟨rfl, ?_, rfl, rfl⟩
  intro stop cname r fuel st0 s
  cases st0 <;> rfl

/-- The template of the C2 counterexample: a `NodeSequenceDef` with
`items = 1` and the default stop, whose generator has not been started. -/
def c2Tmpl : SeqTmpl := ⟨"chunks", "chunk", 4, some 1, stopNever, .notStarted⟩

/-- C2 counterexample: one successful `construct` call on a
`NodeSequenceDef` template with `items = 1` leaves the template's shared
generator object exhausted — observable state the template did not have
before — and a second, otherwise identical parse attempt then fails with
`StopIteration` instead of observing the template in its original state. -/
theorem c2_counterexample :
    (seqTmplConstruct c2Tmpl rootNode bytes12).1.err = none ∧
    (seqTmplConstruct c2Tmpl rootNode bytes12).1.returnedNode = true ∧
    ((seqTmplConstruct c2Tmpl rootNode bytes12).1.parent.children.map
      fun c => c.children.length) = [1] ∧
    (seqTmplConstruct c2Tmpl rootNode bytes12).2.genSt ≠ c2Tmpl.genSt ∧
    (seqTmplConstruct (seqTmplConstruct c2Tmpl rootNode bytes12).2 rootNode
      bytes12).1.err = some "StopIteration" := by
  exact ⟨rfl, rfl, rfl, by decide, rfl⟩

/-- C2 amended: `construct` operates on a private shallow copy and never
rebinds the template's fields (name, child definition, record size, items,
stop all survive every call unchanged), so Definitions whose `children` is
a plain list hold no per-parse state and can drive any number of sequential
parses; but a `NodeSequenceDef` shares its single children-generator object
with every facade, a children run that ends normally leaves that generator
exhausted, and a template whose generator is exhausted cannot drive a
further parse: the next `construct` fails with `StopIteration` and builds
no children. -/
theorem c2_amended_template_state (t : SeqTmpl) (parent : PNode) (s : Src) :
    ((seqTmplConstruct t parent s).2.name = t.name ∧
     (seqTmplConstruct t parent s).2.cname = t.cname ∧
     (seqTmplConstruct t parent s).2.r = t.r ∧
     (seqTmplConstruct t parent s).2.items = t.items ∧
     (seqTmplConstruct t parent s).2.stop = t.stop) ∧
    ((seqTmplConstruct t parent s).1.err = none →
     (seqTmplConstruct t parent s).1.returnedNode = true →
     (seqTmplConstruct t parent s).2.genSt = .exhausted) ∧
    (t.genSt = .exhausted →
      (seqTmplConstruct t parent s).1.err = some "StopIteration" ∧
      ((seqTmplConstruct t parent s).1.parent.children.getLast?.map
        fun c => c.children.length) = some 0) := by
  refine ⟨⟨rfl, rfl, rfl, rfl, rfl⟩, ?_, ?_⟩
  · intro h1 h2
    rcases her : seqChildrenRun t.items t.stop t.cname t.r
      (seqFuel t.items s) t.genSt s with ⟨errv, ch, g, s'⟩
    have hgen := seqChildrenRun_err_none_exhausted t.items t.stop t.cname t.r
      (seqFuel t.items s) t.genSt s
    simp only [seqTmplConstruct, nodeSeqConstruct, her] at h1 h2 hgen ⊢
    cases errv with
    | none => simpa using hgen rfl
    | some e =>
        by_cases hrec : recoveryApplies e t.items ch s'.pos
        · simp [hrec] at h2
        · simp [hrec] at h1
  · intro hex
    obtain ⟨nm, cn, r, it, stp, g⟩ := t
    obtain ⟨pn, pa, pm, pc⟩ := parent
    cases hex
    constructor
    · rfl
    · simp [seqTmplConstruct, nodeSeqConstruct, seqChildrenRun,
        recoveryApplies, PNode.appendChild, PNode.children]

/-- Concrete runs discharging the hypotheses of
`c2_amended_template_state`: the successful `items = 1` parse ends with the
generator exhausted, and a template whose generator is exhausted fails with
`StopIteration`. -/
theorem c2_amended_template_state_witness :
    (seqTmplConstruct c2Tmpl rootNode bytes12).2.genSt = .exhausted ∧
    (seqTmplConstruct ⟨"chunks", "chunk", 4, some 1, stopNever, .exhausted⟩
      rootNode bytes12).1.err = some "StopIteration" :=
  ⟨(c2_amended_template_state c2Tmpl rootNode bytes12).2.1 rfl rfl,
   ((c2_amended_template_state
      ⟨"chunks", "chunk", 4, some 1, stopNever, .exhausted⟩ rootNode
      bytes12).2.2 rfl).1⟩

/-! ## DelegatingDef (`src/definition.py:558-602`)

A dispatch-map value is either a concrete `Definition` — modelled by its
name and the record size its construction reads — or an alias: another
key to look up. -/

inductive DDVal where
  | alias (k : String)
  | defn (id : String) (r : Nat)
  deriving Repr

def ddLookup : List (String × DDVal) → String → Option DDVal
  | [], _ => none
  | (k', v) :: rest, k => if k' = k then some v else ddLookup rest k

/-- `self.defdict.get(key, self.defdict.get("default"))`
(`src/definition.py:583` and `585-586`). -/
def dget (dd : List (String × DDVal)) (k : String) : Option DDVal :=
  match ddLookup dd k with
  | some v => some v
  | none => ddLookup dd "default"

/-- The alias-chasing loop `while not isinstance(delegated, Definition)`
(`src/definition.py:584-588`), which re-looks aliases up (falling back to
`"default"` at each step) until a Definition is found or the chain
dead-ends with `None`.  `fuel` bounds the source's unbounded loop:
`some (some d)` means a Definition was found, `some none` that the chain
dead-ended, `none` that the fuel ran out — which only happens on a cyclic
alias chain, on which the source loops forever (flagged as unspecified in
the design notes); every theorem supplies fuel exceeding the chain
length. -/
def aliasChase (dd : List (String × DDVal)) :
    Nat → Option DDVal → Option (Option (String × Nat))
  | _, some (.defn id r) => some (some (id, r))
  | _, none => some none
  | 0, some (.alias _) => none
  | fuel + 1, some (.alias k) => aliasChase dd fuel (dget dd k)

/-- Result of `DelegatingDef.construct`: the Definition delegated to (if
any), whether the alias loop failed to terminate within fuel, whether the
delegated read succeeded, the parent as left in the tree, and the
source. -/
structure DelRes where
  chosen : Option (String × Nat)
  diverged : Bool
  ok : Bool
  parent : PNode
  src : Src
  deriving Repr

/-- `DelegatingDef.construct(source, parent)` (`src/definition.py:572-598`):
a probe node is created under `parent` (so `Path` semantics work during key
resolution) and deleted again (`del fakenode.parent.children[-1]`); the
resolved key is chased through the alias chain; on success construction is
delegated entirely to the found Definition against the real parent
(modelled as a byte-reading leaf), and on a dead-end a Warning issue — a
one-element list — is recorded on the parent's metadata and nothing further
is constructed. -/
def delegatingConstruct (dd : List (String × DDVal)) (key : String)
    (fuel : Nat) (parent : PNode) (s : Src) : DelRes :=
  let probe : PNode := .mk "DelegatingDef" [] [] []
  let parent1 := (parent.appendChild probe).dropLastChild
  match aliasChase dd fuel (dget dd key) with
  | none => ⟨none, true, false, parent1, s⟩
  | some none =>
      ⟨none, false, true,
        parent1.addMeta [("validation",
          .vlist [.vissue 1 "Failed to find a definition to delegate to."])],
        s⟩
  | some (some (id, r)) =>
      match childConstruct id r s with
      | (cn, okv, s') => ⟨some (id, r), false, okv, parent1.appendChild cn, s'⟩

/-- The dispatch map of the C6 example:
`{"X": "Y", "Y": some_definition, "default": fallback_definition}`. -/
def c6Dict : List (String × DDVal) :=
  [("X", .alias "Y"), ("Y", .defn "some_definition" 4),
   ("default", .defn "fallback_definition" 2)]

/-- C6: when the resolved key maps to an alias the lookup repeats through
the chain until a concrete Definition is found, falling back to the
`"default"` entry at each step: for
`{"X": "Y", "Y": some_definition, "default": fallback_definition}` and a
key resolving to `"X"`, construction delegates to `some_definition` (the
delegated node, not a wrapper, becomes the parent's child); and whenever
the chain dead-ends with nothing found, a non-Fatal Warning issue is
recorded on the parent's metadata and no child is constructed. -/
theorem c6_delegation_alias_chain :
    aliasChase c6Dict 2 (dget c6Dict "X") = some (some ("some_definition", 4)) ∧
    (delegatingConstruct c6Dict "X" 2 rootNode bytes12).chosen
      = some ("some_definition", 4) ∧
    ((delegatingConstruct c6Dict "X" 2 rootNode bytes12).parent.children.map
      PNode.name) = ["some_definition"] ∧
    (∀ (dd : List (String × DDVal)) (key : String) (fuel : Nat)
      (parent : PNode) (s : Src),
      aliasChase dd fuel (dget dd key) = some none →
      (delegatingConstruct dd key fuel parent s).chosen = none ∧
      (delegatingConstruct dd key fuel parent s).parent.children
        = parent.children ∧
      (storeLookup parent.metadata "validation" = none →
        storeLookup (delegatingConstruct dd key fuel parent s).parent.metadata
          "validation"
        = some (.vlist
            [.vissue 1 "Failed to find a definition to delegate to."]))) := by
  refine ⟨rfl, rfl, rfl, ?_⟩
  intro dd key fuel parent s hchase
  obtain ⟨pn, pa, pm, pc⟩ := parent
  refine ⟨?_, ?_, ?_⟩ <;>
    simp only [delegatingConstruct, hchase, PNode.appendChild,
      PNode.dropLastChild, PNode.addMeta, PNode.children, PNode.metadata,
      List.dropLast_concat]
  intro hfresh
  simpa [addData] using addOne_lookup_fresh pm "validation" _ hfresh

theorem c6_delegation_alias_chain_witness :
    (delegatingConstruct [("X", DDVal.alias "Z")] "X" 2 rootNode
      bytes12).chosen = none ∧
    storeLookup (delegatingConstruct [("X", DDVal.alias "Z")] "X" 2 rootNode
      bytes12).parent.metadata "validation"
      = some (.vlist
          [.vissue 1 "Failed to find a definition to delegate to."]) :=
  ⟨(c6_delegation_alias_chain.2.2.2 [("X", DDVal.alias "Z")] "X" 2 rootNode
      bytes12 rfl).1,
   (c6_delegation_alias_chain.2.2.2 [("X", DDVal.alias "Z")] "X" 2 rootNode
      bytes12 rfl).2.2 rfl⟩

/-! ## StringDef decoding (`src/definition.py:423-455`)

`StringDef.get_value` reads `length` bytes and decodes them with the
configured encoding (the claims use `utf8`); `decode_value` first decodes
strictly, and on a `UnicodeDecodeError` records an Error-level issue on the
node's metadata and redecodes with `errors="replace"`, substituting
U+FFFD replacement characters.  CPython's UTF-8 acceptor and its
maximal-subpart substitution policy are embedded below over byte lists,
producing lists of code points. -/

def isCont (b : Nat) : Bool := 0x80 ≤ b && b ≤ 0xBF

/-- Valid range of the first continuation byte of a 3-byte sequence
(excludes overlong encodings for lead `E0` and surrogates for lead `ED`). -/
def cont3first (b b1 : Nat) : Bool :=
  if b = 0xE0 then 0xA0 ≤ b1 && b1 ≤ 0xBF
  else if b = 0xED then 0x80 ≤ b1 && b1 ≤ 0x9F
  else isCont b1

/-- Valid range of the first continuation byte of a 4-byte sequence
(excludes overlongs for lead `F0` and values above U+10FFFF for lead `F4`). -/
def cont4first (b b1 : Nat) : Bool :=
  if b = 0xF0 then 0x90 ≤ b1 && b1 ≤ 0xBF
  else if b = 0xF4 then 0x80 ≤ b1 && b1 ≤ 0x8F
  else isCont b1

/-- Decode one scalar of strict UTF-8: given the lead byte and the
remaining bytes, return the code point and the number of continuation
bytes consumed, or `none` for an ill-formed sequence. -/
def utf8Step (b : Nat) (rest : List Nat) : Option (Nat × Nat) :=
  if b < 0x80 then some (b, 0)
  else if 0xC2 ≤ b && b ≤ 0xDF then
    match rest with
    | b1 :: _ =>
        if isCont b1 then some ((b - 0xC0) * 64 + (b1 - 0x80), 1) else none
    | [] => none
  else if 0xE0 ≤ b && b ≤ 0xEF then
    match rest with
    | b1 :: b2 :: _ =>
        if cont3first b b1 && isCont b2 then
          some ((b - 0xE0) * 4096 + (b1 - 0x80) * 64 + (b2 - 0x80), 2)
        else none
    | _ => none
  else if 0xF0 ≤ b && b ≤ 0xF4 then
    match rest with
    | b1 :: b2 :: b3 :: _ =>
        if cont4first b b1 && isCont b2 && isCont b3 then
          some ((b - 0xF0) * 262144 + (b1 - 0x80) * 4096
            + (b2 - 0x80) * 64 + (b3 - 0x80), 3)
        else none
    | _ => none
  else none

/-- When `utf8Step` fails, the number of bytes the `errors="replace"`
decoder consumes for one U+FFFD: the lead byte plus its longest valid
continuation prefix (CPython's substitution of maximal subparts). -/
def utf8SkipLen (b : Nat) (rest : List Nat) : Nat :=
  if 0xE0 ≤ b && b ≤ 0xEF then
    match rest with
    | b1 :: _ => if cont3first b b1 then 2 else 1
    | [] => 1
  else if 0xF0 ≤ b && b ≤ 0xF4 then
    match rest with
    | b1 :: b2 :: _ =>
        if cont4first b b1 then (if isCont b2 then 3 else 2) else 1
    | b1 :: [] => if cont4first b b1 then 2 else 1
    | [] => 1
  else 1

/-- `val.decode("utf8", errors="strict")`: all-or-nothing decoding.  The
fuel equals the byte count; each step consumes at least the lead byte, so
the callers' fuel can never run out. -/
def decodeStrictAux : Nat → List Nat → Option (List Nat)
  | _, [] => some []
  | 0, _ :: _ => none
  | fuel + 1, b :: rest =>
      match utf8Step b rest with
      | none => none
      | some (cp, k) =>
          match decodeStrictAux fuel (rest.drop k) with
          | none => none
          | some cps => some (cp :: cps)

def decodeStrict (bs : List Nat) : Option (List Nat) :=
  decodeStrictAux bs.length bs

/-- `val.decode("utf8", errors="replace")`: ill-formed maximal subparts
are replaced by U+FFFD (code point `0xFFFD`) and decoding continues. -/
def decodeReplaceAux : Nat → List Nat → List Nat
  | _, [] => []
  | 0, _ :: _ => []
  | fuel + 1, b :: rest =>
      match utf8Step b rest with
      | none =>
          0xFFFD :: decodeReplaceAux fuel (rest.drop (utf8SkipLen b rest - 1))
      | some (cp, k) => cp :: decodeReplaceAux fuel (rest.drop k)

def decodeReplace (bs : List Nat) : List Nat :=
  decodeReplaceAux bs.length bs

/-- `StringDef.decode_value(node, val)` (`src/definition.py:446-455`):
strict decode; on failure, record an Error-level `ValidationError` on the
node's metadata via `add_data` and return the permissive redecode.  (The
recorded message is `str(err)`; a fixed stand-in string represents it.) -/
def decodeValue (node : PNode) (val : List Nat) : List Nat × PNode :=
  match decodeStrict val with
  | some cps => (cps, node)
  | none =>
      (decodeReplace val,
       node.addMeta [("validation",
         .vissue 2 "UnicodeDecodeError: invalid utf-8")])

/-- `StringDef.get_value(node, source)` (`src/definition.py:435-444`): a
negative `length` raises `ValidationFatal`; otherwise read `length` bytes
(an `EOFError` propagates) and decode them. -/
def stringGetValue (length : Int) (node : PNode) (s : Src) :
    Except String (List Nat × PNode × Src) :=
  if length < 0 then .error "ValidationFatal: length is less than 0"
  else
    match srcRead s length.toNat with
    | (none, _) => .error "EOFError"
    | (some bs, s') =>
        let vn := decodeValue node bs
        .ok (vn.1, vn.2, s')

theorem decodeReplaceAux_mem_of_strict_fail :
    ∀ (fuel : Nat) (bs : List Nat), bs.length ≤ fuel →
      decodeStrictAux fuel bs = none →
      0xFFFD ∈ decodeReplaceAux fuel bs := by
  intro fuel
  induction fuel with
  | zero =>
      intro bs hlen hfail
      cases bs with
      | nil => simp [decodeStrictAux] at hfail
      | cons b rest => simp at hlen
  | succ n ih =>
      intro bs hlen hfail
      cases bs with
      | nil => simp [decodeStrictAux] at hfail
      | cons b rest =>
          cases hstep : utf8Step b rest with
          | none => simp [decodeReplaceAux, hstep]
          | some cpk =>
              obtain ⟨cp, k⟩ := cpk
              have hlen' : (rest.drop k).length ≤ n := by
                have : rest.length ≤ n := by simpa using hlen
                have := List.length_drop k rest
                omega
              simp only [decodeStrictAux, hstep] at hfail
              cases hrec : decodeStrictAux n (rest.drop k) with
              | none =>
                  have := ih (rest.drop k) hlen' hrec
                  simp [decodeReplaceAux, hstep, this]
              | some cps => simp [hrec] at hfail

/-- C8: when the bytes a `StringDef` read do not decode strictly under the
configured (utf8) encoding, construction still succeeds: an Error-level
`ValidationError` is recorded on the node's metadata, and the stored value
is the permissive redecode, which substitutes U+FFFD replacement characters
instead of raising — `get_value` returns normally with that value. -/
theorem c8_string_decode_fallback (node : PNode) (bs : List Nat)
    (hfail : decodeStrict bs = none)
    (hfresh : storeLookup node.metadata "validation" = none) :
    (decodeValue node bs).1 = decodeReplace bs ∧
    0xFFFD ∈ (decodeValue node bs).1 ∧
    storeLookup (decodeValue node bs).2.metadata "validation"
      = some (.vissue 2 "UnicodeDecodeError: invalid utf-8") ∧
    stringGetValue (bs.length : Int) node ⟨"f", bs, 0⟩
      = .ok (decodeReplace bs, (decodeValue node bs).2,
          ⟨"f", bs, bs.length⟩) := by
  have hmem : 0xFFFD ∈ decodeReplace bs :=
    decodeReplaceAux_mem_of_strict_fail bs.length bs le_rfl hfail
  have hrec : storeLookup (decodeValue node bs).2.metadata "validation"
      = some (.vissue 2 "UnicodeDecodeError: invalid utf-8") := by
    obtain ⟨nm, av, mt, ch⟩ := node
    simp only [decodeValue, hfail, PNode.addMeta, PNode.metadata]
    simpa [addData] using
      addOne_lookup_fresh mt "validation" _ hfresh
  refine ⟨by simp [decodeValue, hfail], by simp [decodeValue, hfail, hmem],
    hrec, ?_⟩
  have hread : srcRead ⟨"f", bs, 0⟩ bs.length
      = (some bs, ⟨"f", bs, bs.length⟩) := by
    simp [srcRead]
  have hneg : ¬ ((bs.length : Int) < 0) := by omega
  simp [stringGetValue, hneg, hread, decodeValue, hfail]

/-- The specification's concrete instance: 5 bytes that are not valid
UTF-8 (`0xFF` can begin no sequence). -/
theorem c8_string_decode_fallback_witness :
    (decodeValue (.mk "s" [] [] []) [0x41, 0x42, 0x43, 0xFF, 0x44]).1
      = [0x41, 0x42, 0x43, 0xFFFD, 0x44] ∧
    0xFFFD ∈ (decodeValue (.mk "s" [] [] [])
      [0x41, 0x42, 0x43, 0xFF, 0x44]).1 ∧
    storeLookup (decodeValue (.mk "s" [] [] [])
        [0x41, 0x42, 0x43, 0xFF, 0x44]).2.metadata "validation"
      = some (.vissue 2 "UnicodeDecodeError: invalid utf-8") := by
  have h := c8_string_decode_fallback (.mk "s" [] [] [])
    [0x41, 0x42, 0x43, 0xFF, 0x44] rfl rfl
  exact ⟨by rw [h.1]; rfl, h.2.1, h.2.2.1⟩

end PngSpec
